import Mathlib

/-!
Verification development for a markdown-to-PDF/PNG converter.

The code consists of three parts:
* a server route `POST /api/convert` that validates a multipart or JSON
  request and calls the conversion pipeline,
* a conversion pipeline `convertMarkdown` that renders markdown into a
  styled HTML document (`htmlTemplate`), drives a shared headless browser
  (`getBrowser`) and rasterizes the page to PDF or PNG, and
* a browser client holding a single-slot cache of converted bundles keyed
  by a source fingerprint (`getSourceKey`), with preview and download
  operations (`requestSingleConversion`, `handleDownload`).

Everything below is a shallow embedding of that code: pure functions are
translated directly, the browser and network are oracles passed in as
explicit parameters, and the server-side mutable browser singleton is
modelled as a small interleaved transition system.
-/

/-! ## Style template builder (`htmlTemplate` in convert.ts)

The source builds the styled document as one template literal with a single
conditional splice (`options.preventImageSplit ? \`...\` : ""`) and a single
`body` splice.  The four string constants below are the literal pieces of
that template, byte for byte (braces are written `\x7b`/`\x7d` and
apostrophes `\x27`). -/

def styleHead1 : String :=
  "<!DOCTYPE html>\n<html>\n<head>\n<meta charset=\"utf-8\">\n<style>\n  @import url(\x27https://fonts.googleapis.com/css2?family=Inter:wght@400;500;600;700&family=Fira+Code:wght@400;500&display=swap\x27);\n\n  :root \x7b\n    --text: #1a1a2e;\n    --text-secondary: #4a4a6a;\n    --bg: #ffffff;\n    --accent: #4361ee;\n    --border: #e2e8f0;\n    --code-bg: #f8fafc;\n    --blockquote-border: #4361ee;\n    --blockquote-bg: #f0f4ff;\n  \x7d\n\n  * \x7b margin: 0; padding: 0; box-sizing: border-box; \x7d\n\n  body \x7b\n    font-family: \x27Inter\x27, -apple-system, BlinkMacSystemFont, \x27Segoe UI\x27, sans-serif;\n    color: var(--text);\n    background: var(--bg);\n    line-height: 1.75;\n    font-size: 15px;\n    padding: 60px 72px;\n    max-width: 900px;\n    margin: 0 auto;\n  \x7d\n\n  h1, h2, h3, h4, h5, h6 \x7b\n    color: var(--text);\n    font-weight: 700;\n    line-height: 1.3;\n    margin-top: 2em;\n    margin-bottom: 0.75em;\n  \x7d\n\n  h1 \x7b\n    font-size: 2.25em;\n    border-bottom: 3px solid var(--accent);\n    padding-bottom: 0.4em;\n    margin-top: 0;\n  \x7d\n\n  h2 \x7b\n    font-size: 1.65em;\n    border-bottom: 1px solid var(--border);\n    padding-bottom: 0.3em;\n  \x7d\n\n  h3 \x7b font-size: 1.35em; \x7d\n  h4 \x7b font-size: 1.15em; \x7d\n\n  p \x7b margin-bottom: 1em; \x7d\n\n  a \x7b\n    color: var(--accent);\n    text-decoration: none;\n    border-bottom: 1px solid transparent;\n    transition: border-color 0.2s;\n  \x7d\n  a:hover \x7b border-bot"

def styleHead2 : String :=
  "tom-color: var(--accent); \x7d\n\n  strong \x7b font-weight: 600; \x7d\n\n  blockquote \x7b\n    border-left: 4px solid var(--blockquote-border);\n    background: var(--blockquote-bg);\n    padding: 1em 1.5em;\n    margin: 1.5em 0;\n    border-radius: 0 8px 8px 0;\n    color: var(--text-secondary);\n  \x7d\n  blockquote p:last-child \x7b margin-bottom: 0; \x7d\n\n  code \x7b\n    font-family: \x27Fira Code\x27, \x27Cascadia Code\x27, \x27JetBrains Mono\x27, monospace;\n    font-size: 0.88em;\n    background: var(--code-bg);\n    padding: 0.2em 0.45em;\n    border-radius: 4px;\n    border: 1px solid var(--border);\n  \x7d\n\n  pre \x7b\n    background: #1e293b;\n    color: #e2e8f0;\n    border-radius: 10px;\n    padding: 1.25em 1.5em;\n    margin: 1.5em 0;\n    overflow-x: auto;\n    line-height: 1.6;\n    box-shadow: 0 4px 6px -1px rgba(0,0,0,0.1);\n  \x7d\n\n  pre code \x7b\n    background: none;\n    border: none;\n    padding: 0;\n    color: inherit;\n    font-size: 0.85em;\n  \x7d\n\n  /* highlight.js One Dark-ish theme for code blocks */\n  .hljs-keyword, .hljs-selector-tag \x7b color: #c678dd; \x7d\n  .hljs-string, .hljs-template-variable \x7b color: #98c379; \x7d\n  .hljs-number, .hljs-literal \x7b color: #d19a66; \x7d\n  .hljs-comment \x7b color: #5c6370; font-style: italic; \x7d\n  .hljs-function .hljs-title, .hljs-title.function_ \x7b color: #61afef; \x7d\n  .hljs-built_in \x7b color: #e5c07b; \x7d\n  .hljs-attr \x7b color: #d19a66; \x7d\n  .hljs-type, .hljs-class ."

def styleHead3 : String :=
  "hljs-title \x7b color: #e5c07b; \x7d\n  .hljs-params \x7b color: #abb2bf; \x7d\n  .hljs-meta \x7b color: #61afef; \x7d\n  .hljs-tag \x7b color: #e06c75; \x7d\n  .hljs-name \x7b color: #e06c75; \x7d\n  .hljs-attribute \x7b color: #d19a66; \x7d\n\n  ul, ol \x7b\n    margin: 1em 0;\n    padding-left: 2em;\n  \x7d\n\n  li \x7b margin-bottom: 0.4em; \x7d\n  li > ul, li > ol \x7b margin: 0.3em 0; \x7d\n\n  table \x7b\n    width: 100%;\n    border-collapse: collapse;\n    margin: 1.5em 0;\n    font-size: 0.93em;\n  \x7d\n\n  th \x7b\n    background: #f1f5f9;\n    font-weight: 600;\n    text-align: left;\n    padding: 0.75em 1em;\n    border-bottom: 2px solid var(--border);\n  \x7d\n\n  td \x7b\n    padding: 0.65em 1em;\n    border-bottom: 1px solid var(--border);\n  \x7d\n\n  tr:hover td \x7b background: #f8fafc; \x7d\n\n  img \x7b\n    max-width: 100%;\n    width: 100%;\n    height: auto;\n    border-radius: 8px;\n    margin: 1em 0;\n    display: block;\n  \x7d\n\n  svg \x7b\n    max-width: 100%;\n    height: auto;\n    display: block;\n  \x7d\n\n  figure \x7b\n    max-width: 100%;\n    margin: 1em 0;\n  \x7d\n\n  "

def styleHead : String :=
  styleHead1 ++ styleHead2 ++ styleHead3

def paginationSafetyBlock : String :=
  "\n  img \x7b\n    max-height: 200mm;\n    page-break-inside: avoid;\n    break-inside: avoid;\n    page-break-before: auto;\n    page-break-after: auto;\n  \x7d\n\n  /* Markdown renders images inside <p> tags — the container must also avoid splits */\n  p:has(> img) \x7b\n    page-break-inside: avoid;\n    break-inside: avoid;\n  \x7d\n\n  figure img,\n  svg \x7b\n    max-height: 200mm;\n  \x7d\n\n  figure,\n  svg,\n  pre,\n  table,\n  blockquote \x7b\n    page-break-inside: avoid;\n    break-inside: avoid;\n  \x7d\n  "

def styleTail : String :=
  "\n\n  h1, h2, h3, h4, h5, h6 \x7b\n    page-break-after: avoid;\n    break-after: avoid;\n  \x7d\n\n  hr \x7b\n    border: none;\n    border-top: 2px solid var(--border);\n    margin: 2.5em 0;\n  \x7d\n\n  /* Checklist */\n  ul:has(> li > input[type=\"checkbox\"]) \x7b\n    list-style: none;\n    padding-left: 0.5em;\n  \x7d\n</style>\n</head>\n<body>"

def documentEnd : String :=
  "</body>\n</html>"


/-- `htmlTemplate` from convert.ts: the outer template literal with its two
splices.  `preventImageSplit` selects the conditional pagination-safety CSS
block; `body` is the HTML fragment produced by the markdown parser. -/
def htmlTemplate (body : String) (preventImageSplit : Bool) : String :=
  styleHead ++ (if preventImageSplit then paginationSafetyBlock else "") ++ styleTail
    ++ body ++ documentEnd

/-! ## Substring occurrence, used to state presence/absence of CSS text -/

/-- `subList n h` is true when the character list `n` occurs contiguously
inside `h`. -/
def subList (n h : List Char) : Bool :=
  h.tails.any (fun t => n.isPrefixOf t)

/-- `subStr n h`: the string `n` occurs as a contiguous substring of `h`. -/
def subStr (n h : String) : Bool :=
  subList n.toList h.toList

theorem isPrefixOf_append_right (n t e : List Char) (h : n.isPrefixOf t = true) :
    n.isPrefixOf (t ++ e) = true := by
  induction n generalizing t with
  | nil => simp [List.isPrefixOf]
  | cons a as ih =>
    cases t with
    | nil => simp [List.isPrefixOf] at h
    | cons b bs =>
      simp only [List.isPrefixOf, Bool.and_eq_true] at h ⊢
      exact ⟨h.1, ih bs h.2⟩

theorem subList_append_right (n h e : List Char) (hs : subList n h = true) :
    subList n (h ++ e) = true := by
  induction h with
  | nil =>
    simp only [subList, List.tails, List.any_cons, List.any_nil, Bool.or_false] at hs
    have hn : n = [] := by
      cases n with
      | nil => rfl
      | cons a as => simp [List.isPrefixOf] at hs
    subst hn
    cases e with
    | nil => simp [subList, List.isPrefixOf]
    | cons x xs => simp [subList, List.isPrefixOf]
  | cons c cs ih =>
    simp only [subList, List.tails, List.any_cons, Bool.or_eq_true] at hs ⊢
    rcases hs with hpre | hrest
    · exact Or.inl (isPrefixOf_append_right n (c :: cs) e hpre)
    · exact Or.inr (ih hrest)



theorem isPrefixOf_length_le (n t : List Char) (h : n.isPrefixOf t = true) :
    n.length ≤ t.length := by
  induction n generalizing t with
  | nil => simp
  | cons a as ih =>
    cases t with
    | nil => simp [List.isPrefixOf] at h
    | cons b bs =>
      simp only [List.isPrefixOf, Bool.and_eq_true] at h
      simpa using ih bs h.2

theorem isPrefixOf_fits (n a b : List Char) (h : n.isPrefixOf (a ++ b) = true)
    (hl : n.length ≤ a.length) : n.isPrefixOf a = true := by
  induction n generalizing a with
  | nil => simp [List.isPrefixOf]
  | cons x xs ih =>
    cases a with
    | nil => simp at hl
    | cons y ys =>
      simp only [List.cons_append, List.isPrefixOf, Bool.and_eq_true] at h ⊢
      exact ⟨h.1, ih ys h.2 (by simpa using hl)⟩

theorem subList_cons_eq (n : List Char) (c : Char) (t : List Char) :
    subList n (c :: t) = (n.isPrefixOf (c :: t) || subList n t) := by
  simp [subList, List.tails]

theorem subList_of_isPrefixOf (n t : List Char) (h : n.isPrefixOf t = true) :
    subList n t = true := by
  cases t with
  | nil =>
    cases n with
    | nil => simp [subList, List.tails, List.isPrefixOf]
    | cons a as => simp [List.isPrefixOf] at h
  | cons c cs => simp [subList_cons_eq, h]

theorem isPrefixOf_self_append (n e : List Char) : n.isPrefixOf (n ++ e) = true := by
  induction n with
  | nil => simp [List.isPrefixOf]
  | cons a as ih => simp [List.isPrefixOf, ih]

/-- An explicit occurrence `h = x ++ n ++ y` makes `n` a substring of `h`. -/
theorem subList_of_occurrence (n x y : List Char) :
    subList n (x ++ n ++ y) = true := by
  induction x with
  | nil =>
    exact subList_of_isPrefixOf n (n ++ y) (isPrefixOf_self_append n y)
  | cons c cs ih =>
    have : subList n ((c :: cs) ++ n ++ y) = (n.isPrefixOf ((c :: cs) ++ n ++ y) || subList n (cs ++ n ++ y)) := by
      simpa using subList_cons_eq n c (cs ++ n ++ y)
    rw [this, ih]
    simp

theorem isPrefixOf_exists (n t : List Char) (h : n.isPrefixOf t = true) :
    ∃ y, t = n ++ y := by
  induction n generalizing t with
  | nil => exact ⟨t, rfl⟩
  | cons a as ih =>
    cases t with
    | nil => simp [List.isPrefixOf] at h
    | cons b bs =>
      simp only [List.isPrefixOf, Bool.and_eq_true, beq_iff_eq] at h
      obtain ⟨y, hy⟩ := ih bs h.2
      exact ⟨y, by simp [h.1, hy]⟩

/-- A substring occurrence can be exhibited as an explicit split. -/
theorem subList_exists (n h : List Char) (hs : subList n h = true) :
    ∃ x y, h = x ++ n ++ y := by
  induction h with
  | nil =>
    have hn : n.isPrefixOf ([] : List Char) = true := by
      simpa [subList, List.tails] using hs
    obtain ⟨y, hy⟩ := isPrefixOf_exists n [] hn
    exact ⟨[], y, hy⟩
  | cons c cs ih =>
    rw [subList_cons_eq, Bool.or_eq_true] at hs
    rcases hs with hpre | hrest
    · obtain ⟨y, hy⟩ := isPrefixOf_exists n (c :: cs) hpre
      exact ⟨[], y, by simpa using hy⟩
    · obtain ⟨x, y, hxy⟩ := ih hrest
      exact ⟨c :: x, y, by simp [hxy]⟩

/-- Substring occurrence is transitive. -/
theorem subList_trans (m p t : List Char) (h1 : subList m p = true)
    (h2 : subList p t = true) : subList m t = true := by
  obtain ⟨x, y, hxy⟩ := subList_exists p t h2
  obtain ⟨u, v, huv⟩ := subList_exists m p h1
  subst hxy
  subst huv
  have : x ++ (u ++ m ++ v) ++ y = (x ++ u) ++ m ++ (v ++ y) := by simp
  rw [this]
  exact subList_of_occurrence m (x ++ u) (v ++ y)

/-- A pattern longer than the text never occurs in it. -/
theorem subList_short (n h : List Char) (hl : h.length < n.length) :
    subList n h = false := by
  induction h with
  | nil =>
    cases n with
    | nil => simp at hl
    | cons a as => simp [subList, List.tails, List.isPrefixOf]
  | cons c cs ih =>
    rw [subList_cons_eq]
    have h1 : n.isPrefixOf (c :: cs) = false := by
      by_contra hx
      have := isPrefixOf_length_le n (c :: cs) (by revert hx; cases n.isPrefixOf (c :: cs) <;> simp)
      omega
    have h2 : subList n cs = false := ih (by simp at hl ⊢; omega)
    simp [h1, h2]

/-- The last `k` characters of a list. -/
def lastChars (k : Nat) (l : List Char) : List Char :=
  l.drop (l.length - k)

theorem lastChars_length_le (k : Nat) (l : List Char) :
    (lastChars k l).length ≤ k := by
  simp [lastChars]
  omega

theorem lastChars_of_le (k : Nat) (l : List Char) (h : l.length ≤ k) :
    lastChars k l = l := by
  simp [lastChars, Nat.sub_eq_zero_of_le h]

theorem lastChars_cons_of_le (k : Nat) (x : Char) (a : List Char) (h : k ≤ a.length) :
    lastChars k (x :: a) = lastChars k a := by
  simp only [lastChars, List.length_cons]
  have : a.length + 1 - k = (a.length - k) + 1 := by omega
  rw [this, List.drop_succ_cons]

/-- Windowing: an occurrence in `a ++ b` lies either entirely in `a`, or in the
window made of the last `n.length - 1` characters of `a` followed by `b`. -/
theorem subList_split (n b : List Char) :
    ∀ a, subList n (a ++ b) = true →
      subList n a = true ∨ subList n (lastChars (n.length - 1) a ++ b) = true := by
  intro a
  induction a with
  | nil =>
    intro h
    right
    simpa [lastChars] using h
  | cons x a' ih =>
    intro h
    rw [List.cons_append, subList_cons_eq, Bool.or_eq_true] at h
    rcases h with hpre | hrest
    · by_cases hlen : n.length ≤ (x :: a').length
      · left
        exact subList_of_isPrefixOf n (x :: a')
          (isPrefixOf_fits n (x :: a') b (by simpa using hpre) hlen)
      · right
        have hsh : (x :: a').length ≤ n.length - 1 := by
          simp at hlen ⊢
          omega
        rw [lastChars_of_le _ _ hsh]
        exact subList_of_isPrefixOf n ((x :: a') ++ b) (by simpa using hpre)
    · rcases ih hrest with h1 | h2
      · left
        rw [subList_cons_eq, h1]
        simp
      · by_cases hk : n.length - 1 ≤ a'.length
        · right
          rw [lastChars_cons_of_le _ _ _ hk]
          exact h2
        · right
          have ha' : a'.length ≤ n.length - 1 := by omega
          rw [lastChars_of_le _ _ ha'] at h2
          by_cases hxa : (x :: a').length ≤ n.length - 1
          · rw [lastChars_of_le _ _ hxa, List.cons_append, subList_cons_eq, h2]
            simp
          · have : a'.length = n.length - 1 := by simp at hxa; omega
            rw [lastChars_cons_of_le _ _ _ (by omega), lastChars_of_le _ _ ha']
            exact h2

/-- Chunked absence scan: checks that `n` occurs in no window
`carry ++ chunk`, threading the straddle window between chunks. -/
def chunkAbsent (n : List Char) : List Char → List (List Char) → Bool
  | _, [] => true
  | carry, c :: cs =>
      !(subList n (carry ++ c)) &&
        chunkAbsent n (lastChars (n.length - 1) (carry ++ c)) cs

/-- Chunk concatenation. -/
def joinChunks : List (List Char) → List Char
  | [] => []
  | c :: cs => c ++ joinChunks cs

theorem chunkAbsent_sound (n : List Char) (hn : 0 < n.length) :
    ∀ (cs : List (List Char)) (carry : List Char),
      carry.length ≤ n.length - 1 →
      chunkAbsent n carry cs = true →
      subList n (carry ++ joinChunks cs) = false := by
  intro cs
  induction cs with
  | nil =>
    intro carry hc _
    simp only [joinChunks, List.append_nil]
    exact subList_short n carry (by omega)
  | cons c cs' ih =>
    intro carry hc h
    simp only [chunkAbsent, Bool.and_eq_true, Bool.not_eq_true'] at h
    obtain ⟨h1, h2⟩ := h
    by_contra hx
    have hx' : subList n (carry ++ joinChunks (c :: cs')) = true := by
      revert hx; cases subList n (carry ++ joinChunks (c :: cs')) <;> simp
    have hassoc : carry ++ joinChunks (c :: cs') = (carry ++ c) ++ joinChunks cs' := by
      simp [joinChunks]
    rw [hassoc] at hx'
    rcases subList_split n (joinChunks cs') (carry ++ c) hx' with hin | hwin
    · rw [h1] at hin
      exact Bool.false_ne_true hin
    · have := ih (lastChars (n.length - 1) (carry ++ c)) (lastChars_length_le _ _) h2
      rw [this] at hwin
      exact Bool.false_ne_true hwin

/-! ## Shared data model -/

/-- Output format, `"pdf" | "png"` in the source. -/
inductive Format
  | pdf
  | png
deriving DecidableEq, Repr

/-- A browser `File` as the code consumes it: `name`, `size`, `lastModified`
(used by the client fingerprint) and its text `content` (read by the server
via `file.text()`). -/
structure FileM where
  name : String
  size : Nat
  lastModified : Int
  content : String
deriving DecidableEq, Repr

/-- JavaScript `String.prototype.trim`: drop whitespace from both ends. -/
def jsTrim (s : String) : String :=
  (((s.toList.dropWhile Char.isWhitespace).reverse.dropWhile Char.isWhitespace).reverse).asString

/-- Abstract binary payload (a `Blob`/`Uint8Array` body). -/
abbrev BlobM := List Nat

/-! ## Client cache model (App.tsx)

The client state and the `getSourceKey` / `createConversionSource` /
`requestSingleConversion` / `convertBothFormats` / `handleDownload` /
`getDownloadBaseName` functions, translated statement by statement.  The
network call `convertToBlob` is an oracle
`conv : ConversionSource → Format → Except String BlobM`; each model
function also reports the list of conversions it performed. -/

inductive InputTab
  | pasteTab
  | uploadTab
deriving DecidableEq, Repr

inductive Tab
  | paste
  | upload
  | settings
deriving DecidableEq, Repr

inductive ConversionSource
  | upload (file : FileM)
  | paste (markdown : String)
deriving DecidableEq, Repr

structure ConvertedBundle where
  sourceKey : String
  pdf : BlobM
  png : BlobM
deriving DecidableEq, Repr

structure ClientState where
  tab : Tab
  lastInputTab : InputTab
  markdown : String
  file : Option FileM
  format : Format
  preventImageSplit : Bool
  convertedBundle : Option ConvertedBundle
deriving Repr

/-- `const activeInputTab = tab === "settings" ? lastInputTab : tab`. -/
def activeInputTab (st : ClientState) : InputTab :=
  match st.tab with
  | .settings => st.lastInputTab
  | .paste => .pasteTab
  | .upload => .uploadTab

/-- `getSourceKey` from App.tsx: the ConversionFingerprint.  The
`preventImageSplit` React state the closure reads is passed explicitly. -/
def getSourceKey (preventImageSplit : Bool) (source : ConversionSource) : String :=
  match source with
  | .upload f =>
      f.name ++ ":" ++ toString f.size ++ ":" ++ toString f.lastModified
        ++ ":preventSplit=" ++ (if preventImageSplit then "true" else "false")
  | .paste markdown =>
      "paste:" ++ markdown ++ ":preventSplit="
        ++ (if preventImageSplit then "true" else "false")

/-- `createConversionSource(uploadFile?)` from App.tsx. -/
def createConversionSource (st : ClientState) (uploadFile : Option FileM) :
    Option ConversionSource :=
  if activeInputTab st = .uploadTab then
    match uploadFile.orElse (fun _ => st.file) with
    | none => none
    | some f => some (.upload f)
  else
    if jsTrim st.markdown = "" then none
    else some (.paste st.markdown)

/-- Result of a client operation: the value produced, the conversions that
were sent to the server, and whether the operation ended in the error path. -/
structure SingleResult where
  blob : Option BlobM
  performed : List (ConversionSource × Format)
  errored : Bool
deriving DecidableEq, Repr

/-- `requestSingleConversion` from App.tsx: serve the cached bundle when its
`sourceKey` equals the fingerprint of the current source, otherwise convert
the requested preview format. -/
def requestSingleConversion (conv : ConversionSource → Format → Except String BlobM)
    (st : ClientState) : SingleResult :=
  match createConversionSource st none with
  | none => ⟨none, [], true⟩
  | some source =>
      let hit : Option ConvertedBundle :=
        match st.convertedBundle with
        | some b =>
            if b.sourceKey = getSourceKey st.preventImageSplit source then some b
            else none
        | none => none
      match hit with
      | some b =>
          ⟨some (match st.format with | .pdf => b.pdf | .png => b.png), [], false⟩
      | none =>
          match conv source st.format with
          | .ok blob => ⟨some blob, [(source, st.format)], false⟩
          | .error _ => ⟨none, [(source, st.format)], true⟩

structure BothResult where
  bundle : Option ConvertedBundle
  performed : List (ConversionSource × Format)
deriving DecidableEq, Repr

/-- `convertBothFormats` from App.tsx: `Promise.all` of the pdf and the png
conversion; on success the bundle is keyed by `getSourceKey(source)`
computed at call time; on any failure no bundle is stored. -/
def convertBothFormats (conv : ConversionSource → Format → Except String BlobM)
    (preventImageSplit : Bool) (source : ConversionSource) : BothResult :=
  match conv source .pdf, conv source .png with
  | .ok p, .ok g =>
      ⟨some ⟨getSourceKey preventImageSplit source, p, g⟩,
        [(source, .pdf), (source, .png)]⟩
  | _, _ => ⟨none, [(source, .pdf), (source, .png)]⟩

/-- `getDownloadBaseName` from App.tsx; `lastIndexOfDot` models
`fileName.lastIndexOf(".")`. -/
def lastIndexOfDot (s : String) : Int :=
  match s.toList.reverse.findIdx? (fun c => c = '.') with
  | none => -1
  | some j => (s.toList.length : Int) - 1 - (j : Int)

def getDownloadBaseName (source : ConversionSource) : String :=
  match source with
  | .upload f =>
      let fileName := jsTrim f.name
      let lastDotIndex := lastIndexOfDot fileName
      if 0 < lastDotIndex then (fileName.toList.take lastDotIndex.toNat).asString
      else if 0 < fileName.toList.length then fileName
      else "document"
  | .paste _ => "document"

/-- The two `downloadBlob` calls at the end of `handleDownload`: filenames
`baseName.pdf` and `baseName.png`. -/
def downloadPair (b : ConvertedBundle) (source : ConversionSource) : List (BlobM × String) :=
  let base := getDownloadBaseName source
  [(b.pdf, base ++ ".pdf"), (b.png, base ++ ".png")]

structure DownloadResult where
  downloads : List (BlobM × String)
  newBundle : Option ConvertedBundle
  performed : List (ConversionSource × Format)
  errored : Bool
deriving DecidableEq, Repr

/-- `handleDownload` from App.tsx: reuse the cached bundle when its key
matches the fingerprint computed at call time, otherwise run
`convertBothFormats`; then trigger both downloads. -/
def handleDownload (conv : ConversionSource → Format → Except String BlobM)
    (st : ClientState) : DownloadResult :=
  match createConversionSource st none with
  | none => ⟨[], st.convertedBundle, [], true⟩
  | some source =>
      let sourceKey := getSourceKey st.preventImageSplit source
      let cached : Option ConvertedBundle :=
        match st.convertedBundle with
        | some b => if b.sourceKey = sourceKey then some b else none
        | none => none
      match cached with
      | some b => ⟨downloadPair b source, some b, [], false⟩
      | none =>
          let r := convertBothFormats conv st.preventImageSplit source
          match r.bundle with
          | none => ⟨[], st.convertedBundle, r.performed, true⟩
          | some bundle => ⟨downloadPair bundle source, some bundle, r.performed, false⟩

/-! ## Conversion pipeline model (`convertMarkdown` in convert.ts)

The puppeteer page is an oracle `PageEnv`; `convertMarkdown` returns the
conversion outcome together with the sequence of operations it issued to
the page, including the `finally`-guaranteed `closePage`. -/

structure ConvertOptions where
  preventImageSplit : Option Bool := none
deriving DecidableEq, Repr

structure Viewport where
  width : Int
  height : Int
deriving DecidableEq, Repr

structure PdfOptions where
  pageFormat : String
  printBackground : Bool
  marginTop : String
  marginBottom : String
  marginLeft : String
  marginRight : String
deriving DecidableEq, Repr

inductive PageOp
  | setContent (html : String) (waitUntil : String)
  | printPdf (opts : PdfOptions)
  | setViewport (v : Viewport)
  | queryBodyHandle
  | boundingBox
  | screenshot (imageType : String) (fullPage : Bool) (omitBackground : Bool)
  | closePage
deriving DecidableEq, Repr

/-- Oracle for everything the pipeline awaits from its collaborators:
the markdown parser (`marked.parse`), the outcome of `page.setContent`,
the measured `boundingBox` height of the body (`none` models a `null`
bounding box, which makes the destructuring throw), and the bytes or
errors produced by `page.pdf` / `page.screenshot`. -/
structure PageEnv where
  parse : String → String
  setContentResult : Except String Unit
  bodyBoxHeight : Option ℚ
  pdfBytes : Except String BlobM
  screenshotBytes : Except String BlobM

/-- `convertMarkdown` from convert.ts.  The `try { ... } finally
{ await page.close() }` shape is reflected by `closePage` being appended on
every branch, success or failure. -/
def convertMarkdown (env : PageEnv) (markdown : String) (format : Format)
    (options : ConvertOptions) : Except String BlobM × List PageOp :=
  let resolvedPreventImageSplit := options.preventImageSplit.getD true
  let htmlBody := env.parse markdown
  let fullHtml := htmlTemplate htmlBody resolvedPreventImageSplit
  match env.setContentResult with
  | .error e => (.error e, [PageOp.setContent fullHtml "networkidle0", PageOp.closePage])
  | .ok _ =>
      match format with
      | .pdf =>
          let ops := [PageOp.setContent fullHtml "networkidle0",
            PageOp.printPdf ⟨"A4", true, "20mm", "20mm", "15mm", "15mm"⟩]
          match env.pdfBytes with
          | .error e => (.error e, ops ++ [PageOp.closePage])
          | .ok bs => (.ok bs, ops ++ [PageOp.closePage])
      | .png =>
          let ops1 := [PageOp.setContent fullHtml "networkidle0",
            PageOp.setViewport ⟨900, 100⟩, PageOp.queryBodyHandle, PageOp.boundingBox]
          match env.bodyBoxHeight with
          | none => (.error "TypeError: boundingBox is null", ops1 ++ [PageOp.closePage])
          | some h =>
              let ops2 := ops1 ++ [PageOp.setViewport ⟨900, Int.ceil h + 40⟩,
                PageOp.screenshot "png" true false]
              match env.screenshotBytes with
              | .error e => (.error e, ops2 ++ [PageOp.closePage])
              | .ok bs => (.ok bs, ops2 ++ [PageOp.closePage])

/-! ## Server route model (`POST /api/convert` in index.ts) -/

def MAX_SIZE : Nat := 5 * 1024 * 1024

structure MultipartForm where
  file : Option FileM
  markdown : Option String
  format : Option String
  preventImageSplit : Option String
deriving DecidableEq, Repr

structure JsonBody where
  markdown : Option String
  format : Option String
  preventImageSplit : Option Bool
deriving DecidableEq, Repr

inductive ApiRequest
  | multipart (form : MultipartForm)
  | jsonBody (body : JsonBody)
deriving DecidableEq, Repr

inductive RespBody
  | jsonError (error : String)
  | binary (bytes : BlobM)
deriving DecidableEq, Repr

structure ResponseM where
  status : Nat
  body : RespBody
  contentType : Option String
  contentDisposition : Option String
  contentLength : Option Nat
deriving DecidableEq, Repr

/-- Result of the route handler, together with the observable side effects:
whether `file.text()` was awaited, and the arguments `convertMarkdown` was
invoked with (`none` when the pipeline was never reached). -/
structure HandleResult where
  response : ResponseM
  fileRead : Bool
  invoked : Option (String × Format × Bool)
deriving DecidableEq, Repr

/-- `else if (text) { markdown = text }`: the JS truthiness fallback; an
absent or empty text field leaves `markdown` as `""`. -/
def multipartTextFallback (text : Option String) : String :=
  match text with
  | some t => if t = "" then "" else t
  | none => ""

/-- Lines 27–34 of index.ts: resolve the markdown source of a multipart
request.  `.error ()` is the `File too large` early return; the returned
`Bool` records whether the file content was read. -/
def resolveMultipartMarkdown (form : MultipartForm) : Except Unit (String × Bool) :=
  match form.file with
  | some f =>
      if f.size > 0 then
        if f.size > MAX_SIZE then .error ()
        else .ok (f.content, true)
      else .ok (multipartTextFallback form.markdown, false)
  | none => .ok (multipartTextFallback form.markdown, false)

/-- The shared tail of the route: empty-markdown validation, pipeline call,
success headers, and the catch-all 500.  `conv` is the
`convertMarkdown(markdown, format, { preventImageSplit })` call. -/
def convertApi (conv : String → Format → Bool → Except String BlobM)
    (md : String) (format : Format) (pis : Bool) (fileRead : Bool) : HandleResult :=
  if jsTrim md = "" then
    ⟨⟨400, .jsonError "No markdown content provided", none, none, none⟩, fileRead, none⟩
  else
    match conv md format pis with
    | .error _ =>
        ⟨⟨500, .jsonError "Conversion failed. Please try again.", none, none, none⟩,
          fileRead, some (md, format, pis)⟩
    | .ok bytes =>
        let mime := match format with | .pdf => "application/pdf" | .png => "image/png"
        let ext := match format with | .pdf => "pdf" | .png => "png"
        ⟨⟨200, .binary bytes, some mime,
            some ("attachment; filename=\"document." ++ ext ++ "\""),
            some bytes.length⟩,
          fileRead, some (md, format, pis)⟩

/-- `POST /api/convert` from index.ts. -/
def handlePost (conv : String → Format → Bool → Except String BlobM)
    (req : ApiRequest) : HandleResult :=
  match req with
  | .multipart form =>
      let format := if form.format = some "png" then Format.png else Format.pdf
      let pis := form.preventImageSplit ≠ some "false"
      match resolveMultipartMarkdown form with
      | .error _ =>
          ⟨⟨400, .jsonError "File too large (max 5MB)", none, none, none⟩, false, none⟩
      | .ok (md, fr) => convertApi conv md format pis fr
  | .jsonBody body =>
      let md := body.markdown.getD ""
      let format := if body.format = some "png" then Format.png else Format.pdf
      let pis := body.preventImageSplit ≠ some false
      convertApi conv md format pis false

/-- The markdown the route resolves for a request, `none` when the request
is rejected as oversized before its content is read. -/
def resolveRequestMarkdown (req : ApiRequest) : Option String :=
  match req with
  | .multipart form =>
      match resolveMultipartMarkdown form with
      | .error _ => none
      | .ok (md, _) => some md
  | .jsonBody body => some (body.markdown.getD "")

/-! ## Browser singleton model (`getBrowser` in convert.ts)

`getBrowser` reads the module-level `browserInstance`, and when it is null
or disconnected it launches a new browser and stores it.  The `await` on
`puppeteer.launch` is a suspension point, so two in-flight calls can
interleave.  Each call is a tiny thread: `.start` is about to execute the
synchronous `!browserInstance || !browserInstance.connected` check;
`.launching` is suspended inside `await puppeteer.launch(...)`; the launch
resolution, the assignment to `browserInstance` and the `return` of the
just-assigned value are one synchronous segment, hence one atomic step.
Launched browsers are numbered; `launches` counts process launches. -/

inductive GBPc
  | start
  | launching
  | done (id : Nat)
deriving DecidableEq, Repr

structure GBShared where
  browserInstance : Option Nat
  nextId : Nat
  launches : Nat
deriving DecidableEq, Repr

structure GBState where
  shared : GBShared
  t0 : GBPc
  t1 : GBPc
deriving DecidableEq, Repr

def gbStepThread (connected : Nat → Bool) : GBPc → GBShared → GBPc × GBShared
  | .start, sh =>
      match sh.browserInstance with
      | none => (.launching, sh)
      | some id => if connected id then (.done id, sh) else (.launching, sh)
  | .launching, sh =>
      (.done sh.nextId, ⟨some sh.nextId, sh.nextId + 1, sh.launches + 1⟩)
  | .done id, sh => (.done id, sh)

/-- Run two concurrent `getBrowser()` calls under a schedule: `false` steps
thread 0, `true` steps thread 1. -/
def gbRun (connected : Nat → Bool) : List Bool → GBState → GBState
  | [], s => s
  | b :: rest, s =>
      let s' :=
        if b then
          let (pc, sh) := gbStepThread connected s.t1 s.shared
          { s with t1 := pc, shared := sh }
        else
          let (pc, sh) := gbStepThread connected s.t0 s.shared
          { s with t0 := pc, shared := sh }
      gbRun connected rest s'

/-- Fresh server state: no browser yet, both calls about to run the check. -/
def gbInit : GBState := ⟨⟨none, 0, 0⟩, .start, .start⟩

/-! ## Claim theorems -/

set_option maxRecDepth 100000 in
/-- Helper: the character marker `200mm` occurs only inside the conditional
pagination-safety block, nowhere in the unconditional template text. -/
theorem marker_absent_unconditional :
    subList "200mm".toList (htmlTemplate "" false).toList = false := by
  have hglue : (htmlTemplate "" false).toList =
      [] ++ joinChunks [styleHead1.toList, styleHead2.toList, styleHead3.toList,
        styleTail.toList, documentEnd.toList] := by
    simp [htmlTemplate, styleHead, joinChunks, String.toList, String.data_append]
  have hscan : chunkAbsent "200mm".toList []
      [styleHead1.toList, styleHead2.toList, styleHead3.toList,
        styleTail.toList, documentEnd.toList] = true := by decide
  rw [hglue]
  exact chunkAbsent_sound "200mm".toList (by decide) _ [] (by simp) hscan

set_option maxRecDepth 100000 in
/-- C4: for every HTML fragment, the styled document produced by
`htmlTemplate` splices in the conditional pagination-safety CSS block
exactly when `preventImageSplit` is true: with `true` the output is the
fixed theme with the block inserted (and the block, which caps image and
figure height at 200mm and marks break-avoidance units, occurs as a
substring of the output); with `false` the output is the fixed theme with
nothing in the block's place, and the block does not occur anywhere in the
resulting document (checked on the empty fragment: no fragment of the
unconditional template contains it). -/
theorem c4_pagination_block_conditional (body : String) :
    htmlTemplate body true
      = styleHead ++ paginationSafetyBlock ++ styleTail ++ body ++ documentEnd
    ∧ htmlTemplate body false
      = styleHead ++ styleTail ++ body ++ documentEnd
    ∧ subStr paginationSafetyBlock (htmlTemplate body true) = true
    ∧ subStr "max-height: 200mm" paginationSafetyBlock = true
    ∧ subStr "page-break-inside: avoid" paginationSafetyBlock = true
    ∧ subStr "break-inside: avoid" paginationSafetyBlock = true
    ∧ subStr paginationSafetyBlock (htmlTemplate "" false) = false := by
  refine ⟨by simp [htmlTemplate], by simp [htmlTemplate, String.append_empty], ?_, by decide, by decide, by decide, ?_⟩
  · have hsplit : (htmlTemplate body true).toList =
        styleHead.toList ++ paginationSafetyBlock.toList
          ++ (styleTail.toList ++ body.toList ++ documentEnd.toList) := by
      simp [htmlTemplate, String.toList, String.data_append]
    rw [subStr, hsplit]
    exact subList_of_occurrence paginationSafetyBlock.toList styleHead.toList _
  · have hmarker : subList "200mm".toList paginationSafetyBlock.toList = true := by decide
    by_contra hx
    have hx' : subList paginationSafetyBlock.toList (htmlTemplate "" false).toList = true := by
      revert hx
      unfold subStr
      cases subList paginationSafetyBlock.toList (htmlTemplate "" false).toList <;> simp
    have := subList_trans "200mm".toList paginationSafetyBlock.toList
      (htmlTemplate "" false).toList hmarker hx'
    rw [marker_absent_unconditional] at this
    exact Bool.false_ne_true this

/-- Concrete client fixture: pasted markdown `"# Hi"` with a cached bundle
whose fingerprint matches the current input and settings. -/
def cachedState : ClientState :=
  { tab := .paste, lastInputTab := .pasteTab, markdown := "# Hi", file := none,
    format := .pdf, preventImageSplit := true,
    convertedBundle := some ⟨getSourceKey true (.paste "# Hi"), [1], [2]⟩ }

/-- Conversion oracle that returns fresh outputs `[3]` (pdf) and `[4]` (png),
distinct from the cached `[1]`/`[2]`. -/
def freshConv : ConversionSource → Format → Except String BlobM :=
  fun _ f => .ok (match f with | .pdf => [3] | .png => [4])

/-- Same fixture without a cached bundle. -/
def freshState : ClientState := { cachedState with convertedBundle := none }

/-- C1 counterexample: invoking the download operation while a bundle with
an equal fingerprint is cached performs no conversion at all and keeps the
cached bundle (with its old outputs `[1]`/`[2]`) instead of invalidating and
replacing it, contradicting the claim that both conversions are always
performed and stored. -/
theorem c1_counterexample_cached_download :
    (cachedState.convertedBundle.map (fun b => b.sourceKey))
        = some (getSourceKey true (.paste "# Hi"))
    ∧ (handleDownload freshConv cachedState).performed = []
    ∧ (handleDownload freshConv cachedState).performed ≠
        [(ConversionSource.paste "# Hi", Format.pdf), (ConversionSource.paste "# Hi", Format.png)]
    ∧ (handleDownload freshConv cachedState).newBundle = cachedState.convertedBundle
    ∧ (handleDownload freshConv cachedState).newBundle ≠
        some ⟨getSourceKey true (.paste "# Hi"), [3], [4]⟩ := by decide

/-- C1 (amended): the download operation performs both conversions in
parallel and stores both outputs under the fingerprint computed at call
time only when no cached bundle with an equal fingerprint exists; when the
cached bundle's fingerprint equals the one computed at call time, it is
reused and no conversion is performed. -/
theorem c1_download_conversion_policy
    (conv : ConversionSource → Format → Except String BlobM) (st : ClientState)
    (s : ConversionSource) (hs : createConversionSource st none = some s) :
    (∀ b, st.convertedBundle = some b →
      b.sourceKey = getSourceKey st.preventImageSplit s →
      handleDownload conv st = ⟨downloadPair b s, some b, [], false⟩)
    ∧ (∀ p g, (∀ b, st.convertedBundle = some b →
          b.sourceKey ≠ getSourceKey st.preventImageSplit s) →
        conv s .pdf = .ok p → conv s .png = .ok g →
        handleDownload conv st =
          ⟨downloadPair ⟨getSourceKey st.preventImageSplit s, p, g⟩ s,
            some ⟨getSourceKey st.preventImageSplit s, p, g⟩,
            [(s, .pdf), (s, .png)], false⟩) := by
  constructor
  · intro b hb hk
    simp [handleDownload, hs, hb, hk]
  · intro p g hne hp hg
    cases hcb : st.convertedBundle with
    | none => simp [handleDownload, hs, hcb, convertBothFormats, hp, hg]
    | some b =>
      have : b.sourceKey ≠ getSourceKey st.preventImageSplit s := hne b hcb
      simp [handleDownload, hs, hcb, this, convertBothFormats, hp, hg]

/-- C1 witness: on the fixture without a cached bundle the download
operation performs both conversions and stores the fresh outputs under the
call-time fingerprint. -/
theorem c1_download_conversion_policy_witness :
    handleDownload freshConv freshState =
      ⟨downloadPair ⟨getSourceKey true (.paste "# Hi"), [3], [4]⟩ (.paste "# Hi"),
        some ⟨getSourceKey true (.paste "# Hi"), [3], [4]⟩,
        [(.paste "# Hi", .pdf), (.paste "# Hi", .png)], false⟩ :=
  (c1_download_conversion_policy freshConv freshState (.paste "# Hi") rfl).2
    [3] [4] (fun b hb => by simp [freshState, cachedState] at hb) rfl rfl

/-- C2: evidence for the check-then-launch race in `getBrowser`.  From a
fresh server state, the interleaving in which both in-flight calls execute
the `!browserInstance || !browserInstance.connected` check before either
`puppeteer.launch` resolves makes the code launch two browser processes,
and the two callers obtain different browsers (ids 0 and 1); when one call
runs to completion before the other starts there is exactly one launch and
both observe the same browser.  This refutes the claim that the
launch-on-first-use path never races two browser processes into
existence. -/
theorem c2_getBrowser_race_trace :
    ((gbRun (fun _ => true) [false, true, false, true] gbInit).shared.launches = 2
      ∧ (gbRun (fun _ => true) [false, true, false, true] gbInit).t0 = GBPc.done 0
      ∧ (gbRun (fun _ => true) [false, true, false, true] gbInit).t1 = GBPc.done 1)
    ∧ ((gbRun (fun _ => true) [false, false, true, true] gbInit).shared.launches = 1
      ∧ (gbRun (fun _ => true) [false, false, true, true] gbInit).t0 = GBPc.done 0
      ∧ (gbRun (fun _ => true) [false, false, true, true] gbInit).t1 = GBPc.done 0) := by
  decide

theorem append_true_false_ne (a : String) : a ++ "true" ≠ a ++ "false" := by
  intro h
  have hl := congrArg String.length h
  simp only [String.length_append] at hl
  rw [show ("true" : String).length = 4 from rfl,
    show ("false" : String).length = 5 from rfl] at hl
  omega

theorem getSourceKey_split_ne (x : Bool) (source : ConversionSource) :
    getSourceKey x source ≠ getSourceKey (!x) source := by
  cases x with
  | true =>
    cases source with
    | upload f => simpa [getSourceKey] using append_true_false_ne _
    | paste m => simpa [getSourceKey] using append_true_false_ne _
  | false =>
    cases source with
    | upload f => simpa [getSourceKey] using (append_true_false_ne _).symm
    | paste m => simpa [getSourceKey] using (append_true_false_ne _).symm

/-- C3: with content fixed, flipping `preventImageSplit` changes the
ConversionFingerprint (`getSourceKey`), so a bundle cached under the other
setting no longer hits and a conversion is performed; changing only the
preview format leaves the fingerprint untouched: a matching cached bundle
is served for either format without any conversion. -/
theorem c3_fingerprint_sensitivity :
    (∀ source : ConversionSource, getSourceKey true source ≠ getSourceKey false source)
    ∧ (∀ (conv : ConversionSource → Format → Except String BlobM)
        (st : ClientState) (s : ConversionSource) (b : ConvertedBundle),
        createConversionSource st none = some s →
        st.convertedBundle = some b →
        b.sourceKey = getSourceKey st.preventImageSplit s →
        ∀ f : Format,
          requestSingleConversion conv { st with format := f } =
            ⟨some (match f with | .pdf => b.pdf | .png => b.png), [], false⟩)
    ∧ (∀ (conv : ConversionSource → Format → Except String BlobM)
        (st : ClientState) (s : ConversionSource) (b : ConvertedBundle),
        createConversionSource st none = some s →
        st.convertedBundle = some b →
        b.sourceKey = getSourceKey (!st.preventImageSplit) s →
        (requestSingleConversion conv st).performed = [(s, st.format)]) := by
  refine ⟨?_, ?_, ?_⟩
  · intro source
    simpa using getSourceKey_split_ne true source
  · intro conv st s b hs hb hk f
    have hs' : createConversionSource { st with format := f } none = some s := hs
    simp only [requestSingleConversion, hs']
    simp [hb, hk]
  · intro conv st s b hs hb hk
    have hne : ¬ b.sourceKey = getSourceKey st.preventImageSplit s := by
      rw [hk]
      exact fun h => getSourceKey_split_ne st.preventImageSplit s h.symm
    cases hcv : conv s st.format with
    | ok blob => simp [requestSingleConversion, hs, hb, hne, hcv]
    | error e => simp [requestSingleConversion, hs, hb, hne, hcv]

/-- C3 witness: on the cached fixture, previewing in PNG format (while the
bundle was produced with PDF selected) serves the cached PNG with no
conversion performed. -/
theorem c3_fingerprint_sensitivity_witness :
    requestSingleConversion freshConv { cachedState with format := Format.png } =
      ⟨some [2], [], false⟩ :=
  c3_fingerprint_sensitivity.2.1 freshConv cachedState (.paste "# Hi")
    ⟨getSourceKey true (.paste "# Hi"), [1], [2]⟩ rfl rfl rfl Format.png

/-- C5: the PNG (full-capture) path of `convertMarkdown` first sets a
viewport of fixed width 900 and nominal height 100, queries the body's
layout box for the content height `h`, then resizes the viewport to
`900 × (⌈h⌉ + 40)` before capturing with `fullPage` and background
compositing enabled (`omitBackground = false`); a measured height of zero
gives the minimal viewport `900 × 40` (the padding alone) and still
produces the screenshot bytes rather than an error. -/
theorem c5_png_two_pass_sizing (env : PageEnv) (md : String) (opts : ConvertOptions)
    (h : ℚ) (hsc : env.setContentResult = .ok ()) (hh : env.bodyBoxHeight = some h)
    (_hnn : 0 ≤ h) :
    (convertMarkdown env md .png opts).2 =
      [PageOp.setContent (htmlTemplate (env.parse md) (opts.preventImageSplit.getD true))
          "networkidle0",
        PageOp.setViewport ⟨900, 100⟩, PageOp.queryBodyHandle, PageOp.boundingBox,
        PageOp.setViewport ⟨900, Int.ceil h + 40⟩, PageOp.screenshot "png" true false,
        PageOp.closePage]
    ∧ (h = 0 → Int.ceil h + 40 = 40)
    ∧ (∀ bs, env.screenshotBytes = .ok bs → (convertMarkdown env md .png opts).1 = .ok bs) := by
  refine ⟨?_, ?_, ?_⟩
  · cases hss : env.screenshotBytes with
    | ok bs => simp [convertMarkdown, hsc, hh, hss]
    | error e => simp [convertMarkdown, hsc, hh, hss]
  · intro h0
    rw [h0]
    simp
  · intro bs hbs
    simp [convertMarkdown, hsc, hh, hbs]

/-- Concrete page oracle: content loads, the body measures zero height, the
screenshot yields `[6]`. -/
def pngProbeEnv : PageEnv :=
  { parse := fun s => s, setContentResult := .ok (), bodyBoxHeight := some 0,
    pdfBytes := .ok [5], screenshotBytes := .ok [6] }

/-- C5 witness: at measured height 0 the second viewport is `900 × 40` and
the conversion succeeds. -/
theorem c5_png_two_pass_sizing_witness :
    pngProbeEnv.setContentResult = .ok () ∧ pngProbeEnv.bodyBoxHeight = some (0 : ℚ)
    ∧ (0 : ℚ) ≤ 0
    ∧ (convertMarkdown pngProbeEnv "# Hi" .png ⟨none⟩).2 =
      [PageOp.setContent (htmlTemplate "# Hi" true) "networkidle0",
        PageOp.setViewport ⟨900, 100⟩, PageOp.queryBodyHandle, PageOp.boundingBox,
        PageOp.setViewport ⟨900, 40⟩, PageOp.screenshot "png" true false,
        PageOp.closePage]
    ∧ (convertMarkdown pngProbeEnv "# Hi" .png ⟨none⟩).1 = .ok [6] := by
  have t := c5_png_two_pass_sizing pngProbeEnv "# Hi" ⟨none⟩ 0 rfl rfl (le_refl 0)
  refine ⟨rfl, rfl, le_refl 0, ?_, t.2.2 [6] rfl⟩
  simpa using t.1

/-- C8: on every exit path of `convertMarkdown` — setContent failure, pdf
capture success or failure, a null bounding box, screenshot success or
failure — the page is closed last, before the result or error reaches the
caller: the operation trace always ends with `closePage`. -/
theorem c8_page_always_closed (env : PageEnv) (md : String) (fmt : Format)
    (opts : ConvertOptions) :
    ∃ pre, (convertMarkdown env md fmt opts).2 = pre ++ [PageOp.closePage] := by
  cases hsc : env.setContentResult with
  | error e =>
    exact ⟨[PageOp.setContent
      (htmlTemplate (env.parse md) (opts.preventImageSplit.getD true)) "networkidle0"],
      by simp [convertMarkdown, hsc]⟩
  | ok u =>
    cases fmt with
    | pdf =>
      cases hp : env.pdfBytes with
      | error e =>
        exact ⟨[PageOp.setContent
          (htmlTemplate (env.parse md) (opts.preventImageSplit.getD true)) "networkidle0",
          PageOp.printPdf ⟨"A4", true, "20mm", "20mm", "15mm", "15mm"⟩],
          by simp [convertMarkdown, hsc, hp]⟩
      | ok bs =>
        exact ⟨[PageOp.setContent
          (htmlTemplate (env.parse md) (opts.preventImageSplit.getD true)) "networkidle0",
          PageOp.printPdf ⟨"A4", true, "20mm", "20mm", "15mm", "15mm"⟩],
          by simp [convertMarkdown, hsc, hp]⟩
    | png =>
      cases hb : env.bodyBoxHeight with
      | none =>
        exact ⟨[PageOp.setContent
          (htmlTemplate (env.parse md) (opts.preventImageSplit.getD true)) "networkidle0",
          PageOp.setViewport ⟨900, 100⟩, PageOp.queryBodyHandle, PageOp.boundingBox],
          by simp [convertMarkdown, hsc, hb]⟩
      | some h =>
        cases hs : env.screenshotBytes with
        | error e =>
          exact ⟨[PageOp.setContent
            (htmlTemplate (env.parse md) (opts.preventImageSplit.getD true)) "networkidle0",
            PageOp.setViewport ⟨900, 100⟩, PageOp.queryBodyHandle, PageOp.boundingBox,
            PageOp.setViewport ⟨900, Int.ceil h + 40⟩, PageOp.screenshot "png" true false],
            by simp [convertMarkdown, hsc, hb, hs]⟩
        | ok bs =>
          exact ⟨[PageOp.setContent
            (htmlTemplate (env.parse md) (opts.preventImageSplit.getD true)) "networkidle0",
            PageOp.setViewport ⟨900, 100⟩, PageOp.queryBodyHandle, PageOp.boundingBox,
            PageOp.setViewport ⟨900, Int.ceil h + 40⟩, PageOp.screenshot "png" true false],
            by simp [convertMarkdown, hsc, hb, hs]⟩

/-- C6: a multipart request whose uploaded file exceeds 5 MiB is answered
with HTTP 400 and body `{ error: "File too large (max 5MB)" }`; the file's
content is never read (`fileRead = false`) and the rendering pipeline is
never invoked (`invoked = none`). -/
theorem c6_oversized_file_rejected (conv : String → Format → Bool → Except String BlobM)
    (form : MultipartForm) (f : FileM) (hf : form.file = some f)
    (hsize : f.size > 5 * 1024 * 1024) :
    handlePost conv (.multipart form) =
      ⟨⟨400, .jsonError "File too large (max 5MB)", none, none, none⟩, false, none⟩ := by
  have h0 : f.size > 0 := by omega
  have hmax : f.size > MAX_SIZE := by simpa [MAX_SIZE] using hsize
  simp [handlePost, resolveMultipartMarkdown, hf, h0, hmax]

/-- C6 witness: a 6 MiB upload is rejected without side effects. -/
theorem c6_oversized_file_rejected_witness :
    handlePost (fun _ _ _ => .ok [7])
        (.multipart ⟨some ⟨"big.md", 6 * 1024 * 1024, 0, "x"⟩, none, none, none⟩) =
      ⟨⟨400, .jsonError "File too large (max 5MB)", none, none, none⟩, false, none⟩ :=
  c6_oversized_file_rejected _ _ ⟨"big.md", 6 * 1024 * 1024, 0, "x"⟩ rfl (by norm_num)

/-- C7: whenever the markdown a request resolves to is empty or
whitespace-only — whether the request was multipart or JSON, and whatever
format it asked for — the route answers HTTP 400 with body
`{ error: "No markdown content provided" }` and never invokes the
rendering pipeline. -/
theorem c7_empty_markdown_rejected (conv : String → Format → Bool → Except String BlobM)
    (req : ApiRequest) (md : String)
    (hres : resolveRequestMarkdown req = some md) (hmt : jsTrim md = "") :
    (handlePost conv req).response =
      ⟨400, .jsonError "No markdown content provided", none, none, none⟩
    ∧ (handlePost conv req).invoked = none := by
  cases req with
  | multipart form =>
    cases hr : resolveMultipartMarkdown form with
    | error u => simp [resolveRequestMarkdown, hr] at hres
    | ok pr =>
      obtain ⟨m, fr⟩ := pr
      have hm : m = md := by simpa [resolveRequestMarkdown, hr] using hres
      subst hm
      simp [handlePost, hr, convertApi, hmt]
  | jsonBody body =>
    have hm : body.markdown.getD "" = md := by
      simpa [resolveRequestMarkdown] using hres
    simp [handlePost, convertApi, hm, hmt]

/-- C7 witness: a JSON request with `markdown: ""` and format `"png"`. -/
theorem c7_empty_markdown_rejected_witness :
    (handlePost (fun _ _ _ => .ok [7]) (.jsonBody ⟨some "", some "png", none⟩)).response =
      ⟨400, .jsonError "No markdown content provided", none, none, none⟩
    ∧ (handlePost (fun _ _ _ => .ok [7]) (.jsonBody ⟨some "", some "png", none⟩)).invoked
        = none :=
  c7_empty_markdown_rejected (fun _ _ _ => .ok [7]) (.jsonBody ⟨some "", some "png", none⟩)
    "" rfl rfl

/-- C9: a multipart request carrying a `file` field of declared size 0 next
to a non-empty `markdown` text field resolves exactly as if the file were
absent: the text field's content becomes the markdown source, the file is
never read, and the whole route behaves identically to the same request
without the file. -/
theorem c9_zero_size_file_ignored (form : MultipartForm) (f : FileM) (t : String)
    (hf : form.file = some f) (hsz : f.size = 0) (ht : form.markdown = some t)
    (hne : t ≠ "") :
    resolveMultipartMarkdown form = .ok (t, false)
    ∧ resolveMultipartMarkdown { form with file := none } = .ok (t, false)
    ∧ ∀ conv, handlePost conv (.multipart form) =
        handlePost conv (.multipart { form with file := none }) := by
  have h1 : resolveMultipartMarkdown form = .ok (t, false) := by
    simp [resolveMultipartMarkdown, hf, hsz, multipartTextFallback, ht, hne]
  have h2 : resolveMultipartMarkdown { form with file := none } = .ok (t, false) := by
    simp [resolveMultipartMarkdown, multipartTextFallback, ht, hne]
  refine ⟨h1, h2, fun conv => ?_⟩
  simp [handlePost, h1, h2]

/-- C9 witness: `file` of size 0 plus `markdown: "# Hi"`. -/
theorem c9_zero_size_file_ignored_witness :
    resolveMultipartMarkdown ⟨some ⟨"a.md", 0, 0, "zzz"⟩, some "# Hi", none, none⟩
        = .ok ("# Hi", false)
    ∧ resolveMultipartMarkdown ⟨none, some "# Hi", none, none⟩ = .ok ("# Hi", false)
    ∧ handlePost (fun _ _ _ => .ok [7])
          (.multipart ⟨some ⟨"a.md", 0, 0, "zzz"⟩, some "# Hi", none, none⟩) =
        handlePost (fun _ _ _ => .ok [7]) (.multipart ⟨none, some "# Hi", none, none⟩) := by
  have h := c9_zero_size_file_ignored ⟨some ⟨"a.md", 0, 0, "zzz"⟩, some "# Hi", none, none⟩
    ⟨"a.md", 0, 0, "zzz"⟩ "# Hi" rfl rfl rfl (by decide)
  exact ⟨h.1, h.2.1, h.2.2 (fun _ _ _ => .ok [7])⟩

/-- C10 counterexample: an uploaded file named `"."` — a leading-dot-only
name — does not fall back to the base name `"document"`: the code returns
the name whole. -/
theorem c10_counterexample_leading_dot :
    getDownloadBaseName (.upload ⟨".", 1, 0, ""⟩) = "."
    ∧ getDownloadBaseName (.upload ⟨".", 1, 0, ""⟩) ≠ "document" := by
  decide

/-- C10 (amended): the saved filenames' base comes from the uploaded file's
trimmed name with the extension stripped exactly when the last dot sits at
a position greater than zero; any other non-empty trimmed name — dotless or
with its only dot leading — is used whole; only an empty (after trimming)
name, and every pasted-text download, falls back to `"document"`; the two
saved filenames are that base with `.pdf` and `.png` appended. -/
theorem c10_base_name_rules (f : FileM) :
    (∀ i : Int, lastIndexOfDot (jsTrim f.name) = i → 0 < i →
      getDownloadBaseName (.upload f) = ((jsTrim f.name).toList.take i.toNat).asString)
    ∧ (lastIndexOfDot (jsTrim f.name) = -1 → (jsTrim f.name).toList ≠ [] →
      getDownloadBaseName (.upload f) = jsTrim f.name)
    ∧ (lastIndexOfDot (jsTrim f.name) = 0 →
      getDownloadBaseName (.upload f) = jsTrim f.name)
    ∧ ((jsTrim f.name).toList = [] → getDownloadBaseName (.upload f) = "document")
    ∧ (('.' ∉ (jsTrim f.name).toList) → lastIndexOfDot (jsTrim f.name) = -1)
    ∧ (∀ md, getDownloadBaseName (.paste md) = "document")
    ∧ (∀ b s, downloadPair b s =
        [(b.pdf, getDownloadBaseName s ++ ".pdf"), (b.png, getDownloadBaseName s ++ ".png")]) := by
  refine ⟨?_, ?_, ?_, ?_, ?_, fun md => rfl, fun b s => rfl⟩
  · intro i hi hpos
    simp [getDownloadBaseName, hi, hpos]
  · intro hi hne
    have hlen : 0 < (jsTrim f.name).toList.length := List.length_pos.mpr hne
    simp [getDownloadBaseName, hi, hlen]
    intro hcontra
    have hz : (jsTrim f.name).toList.length = 0 := hcontra
    omega
  · intro hi
    have hlen : 0 < (jsTrim f.name).toList.length := by
      by_contra hx
      have h0 : (jsTrim f.name).toList = [] := by
        cases hl : (jsTrim f.name).toList with
        | nil => rfl
        | cons a l => rw [hl] at hx; simp at hx
      rw [lastIndexOfDot, h0] at hi
      simp [List.findIdx?] at hi
    simp [getDownloadBaseName, hi, hlen]
    intro hcontra
    have hz : (jsTrim f.name).toList.length = 0 := hcontra
    omega
  · intro h0
    rw [getDownloadBaseName]
    rw [show lastIndexOfDot (jsTrim f.name) = -1 from by
      rw [lastIndexOfDot, h0]; simp [List.findIdx?]]
    simp [h0]
    intro hcontra
    have hz : (0 : Nat) < (jsTrim f.name).toList.length := hcontra
    rw [h0] at hz
    simp at hz
  · intro hnd
    rw [lastIndexOfDot]
    rw [show (jsTrim f.name).toList.reverse.findIdx? (fun c => c = '.') = none from ?_]
    rw [List.findIdx?_eq_none_iff]
    intro a ha
    have : a ∈ (jsTrim f.name).toList := List.mem_reverse.mp ha
    simp only [decide_eq_false_iff_not]
    intro haeq
    exact hnd (haeq ▸ this)

/-- C10 witness: `"notes.md"` strips to `"notes"`, and a pasted-text
download uses `"document"`. -/
theorem c10_base_name_rules_witness :
    getDownloadBaseName (.upload ⟨"notes.md", 3, 7, "c"⟩) = "notes"
    ∧ getDownloadBaseName (.paste "x") = "document" := by
  constructor
  · have h := (c10_base_name_rules ⟨"notes.md", 3, 7, "c"⟩).1 5 (by decide) (by decide)
    rw [h]
    decide
  · exact (c10_base_name_rules ⟨"notes.md", 3, 7, "c"⟩).2.2.2.2.2.1 "x"
